import Mathlib

/-
Verification of the struct-mapping and merge engine of excemel.py.

The program manipulates JSON-like data (Python dicts, lists and scalars)
read from a JSON config and an Excel sheet.  We embed those values as the
inductive type `Val` below.  Python dicts preserve insertion order, so a
dict is an ordered association list; keys may be any hashable object (here:
the scalar constructors).  The functions of the source file are translated
one by one; Python exceptions (KeyError, IndexError, TypeError,
AttributeError) are modelled as `none` of an `Option` result, and in-place
mutation becomes explicit state passing.
-/

namespace Excemel

/-- JSON-like runtime values of the program: strings, integers, booleans,
None, dicts (insertion-ordered association lists, as CPython dicts), and
lists.  Floats never occur in the claims under study and are not modelled. -/
inductive Val where
  | str : String → Val
  | int : Int → Val
  | bool : Bool → Val
  | null : Val
  | dict : List (Val × Val) → Val
  | list : List Val → Val

mutual

/-- Structural equality on values (Python `==` restricted to the value
shapes this program builds; dict comparison is insertion-order sensitive,
which coincides with Python on the identically-ordered dicts the program
compares). -/
def beqVal : Val → Val → Bool
  | .str a, .str b => a == b
  | .int a, .int b => a == b
  | .bool a, .bool b => a == b
  | .null, .null => true
  | .dict a, .dict b => beqDict a b
  | .list a, .list b => beqList a b
  | _, _ => false

/-- Entrywise equality of association lists of values. -/
def beqDict : List (Val × Val) → List (Val × Val) → Bool
  | [], [] => true
  | (k1, v1) :: r1, (k2, v2) :: r2 => beqVal k1 k2 && beqVal v1 v2 && beqDict r1 r2
  | _, _ => false

/-- Elementwise equality of lists of values. -/
def beqList : List Val → List Val → Bool
  | [], [] => true
  | a :: r1, b :: r2 => beqVal a b && beqList r1 r2
  | _, _ => false

end

mutual

theorem beqVal_iff : ∀ a b : Val, beqVal a b = true ↔ a = b
  | .str a, .str b => by simp [beqVal]
  | .int a, .int b => by simp [beqVal]
  | .bool a, .bool b => by simp [beqVal]
  | .null, .null => by simp [beqVal]
  | .dict a, .dict b => by simp [beqVal, beqDict_iff a b]
  | .list a, .list b => by simp [beqVal, beqList_iff a b]
  | .str _, .int _ | .str _, .bool _ | .str _, .null | .str _, .dict _ | .str _, .list _
  | .int _, .str _ | .int _, .bool _ | .int _, .null | .int _, .dict _ | .int _, .list _
  | .bool _, .str _ | .bool _, .int _ | .bool _, .null | .bool _, .dict _ | .bool _, .list _
  | .null, .str _ | .null, .int _ | .null, .bool _ | .null, .dict _ | .null, .list _
  | .dict _, .str _ | .dict _, .int _ | .dict _, .bool _ | .dict _, .null | .dict _, .list _
  | .list _, .str _ | .list _, .int _ | .list _, .bool _ | .list _, .null | .list _, .dict _ => by
      simp [beqVal]

theorem beqDict_iff : ∀ a b : List (Val × Val), beqDict a b = true ↔ a = b
  | [], [] => by simp [beqDict]
  | (k1, v1) :: r1, (k2, v2) :: r2 => by
      simp [beqDict, beqVal_iff k1 k2, beqVal_iff v1 v2, beqDict_iff r1 r2, and_assoc]
  | [], _ :: _ => by simp [beqDict]
  | _ :: _, [] => by simp [beqDict]

theorem beqList_iff : ∀ a b : List Val, beqList a b = true ↔ a = b
  | [], [] => by simp [beqList]
  | a :: r1, b :: r2 => by simp [beqList, beqVal_iff a b, beqList_iff r1 r2]
  | [], _ :: _ => by simp [beqList]
  | _ :: _, [] => by simp [beqList]

end

instance : DecidableEq Val := fun a b => decidable_of_iff _ (beqVal_iff a b)

/-- The reserved merge bookkeeping key, `MERGE_KEY = "__MERGE__"`. -/
def mergeKeyS : String := "__MERGE__"

/-- `MERGE_KEY` as a dict key / value. -/
def mergeKeyV : Val := .str mergeKeyS

/-- A value is a scalar (hashable, usable as a dict key) when it is not a
dict or a list. -/
def isScalar : Val → Bool
  | .dict _ => false
  | .list _ => false
  | _ => true

/-- A value is a container (dict or list). -/
def isContainer : Val → Bool
  | .dict _ => true
  | .list _ => true
  | _ => false

/-- First-match lookup in an ordered association list (CPython dict read). -/
def lookupD : List (Val × Val) → Val → Option Val
  | [], _ => none
  | (k, v) :: rest, key => if k = key then some v else lookupD rest key

/-- CPython dict assignment `d[key] = value`: replace the value at the first
occurrence of the key keeping its position, else append the new key at the
end (insertion order). -/
def setD : List (Val × Val) → Val → Val → List (Val × Val)
  | [], key, value => [(key, value)]
  | (k, v) :: rest, key, value =>
      if k = key then (k, value) :: rest else (k, v) :: setD rest key value

/-- CPython list read `l[n]`, including negative indices counting from the
end; out-of-range indices raise IndexError (`none`). -/
def listGet (l : List Val) (n : Int) : Option Val :=
  if 0 ≤ n then l.get? n.toNat
  else if 0 ≤ (l.length : Int) + n then l.get? ((l.length : Int) + n).toNat
  else none

/-- CPython list assignment `l[n] = v`, including negative indices;
out-of-range indices raise IndexError (`none`). -/
def listSet (l : List Val) (n : Int) (v : Val) : Option (List Val) :=
  if 0 ≤ n then
    if n.toNat < l.length then some (l.set n.toNat v) else none
  else if 0 ≤ (l.length : Int) + n then
    some (l.set ((l.length : Int) + n).toNat v)
  else none

/-- Python subscript read `container[key]` (`operator.getitem`): dict lookup
for hashable keys (KeyError when absent, TypeError on unhashable keys),
integer indexing for lists, TypeError (`none`) otherwise. -/
def getItem : Val → Val → Option Val
  | .dict d, key => if isScalar key then lookupD d key else none
  | .list l, .int n => listGet l n
  | _, _ => none

/-- Python subscript assignment `container[key] = value`: dict assignment
for hashable keys, in-range integer indexing for lists, TypeError (`none`)
otherwise. -/
def assignItem : Val → Val → Val → Option Val
  | .dict d, key, value => if isScalar key then some (.dict (setD d key value)) else none
  | .list l, .int n, value => (listSet l n value).map .list
  | _, _, _ => none

/-- `set_nested_value(struct, path, value)` (excemel.py, lines 132-146):
pops the last path segment, resolves the remaining segments by repeated
`getitem` (`functools.reduce(operator.getitem, path, struct)`), then assigns
the value at the last segment in the container reached.  The in-place
mutation is rendered as returning the updated structure; any raised
exception (empty path, failed lookup, non-container on the way, out-of-range
index) is `none`. -/
def setNestedValue : Val → List Val → Val → Option Val
  | _, [], _ => none
  | v, [seg], value => assignItem v seg value
  | v, seg :: rest, value =>
      match getItem v seg with
      | none => none
      | some child =>
          match setNestedValue child rest value with
          | none => none
          | some child2 => assignItem v seg child2

/-- Repeated `getitem` along a path (`functools.reduce(operator.getitem, path, struct)`). -/
def resolve : Val → List Val → Option Val
  | v, [] => some v
  | v, seg :: rest =>
      match getItem v seg with
      | none => none
      | some child => resolve child rest

/-- Whether the final Python assignment `container[seg] = value` succeeds:
any hashable key for a dict, an in-range integer index for a list. -/
def canAssign : Val → Val → Bool
  | .dict _, key => isScalar key
  | .list l, .int n =>
      if 0 ≤ n then decide (n.toNat < l.length)
      else decide (0 ≤ (l.length : Int) + n)
  | _, _ => false

/-! ## PathIndex: `get_path_recursive` (excemel.py, lines 107-130) -/

/-- The `paths` dictionary built by `get_path_recursive`: it maps column
index values (and the literal string key `"merge"`) to paths.  Keys are the
values `struct["col"]` found in the template, plus `"merge"`. -/
abbrev PathMap := List (Val × List Val)

/-- First-match lookup in the paths dictionary. -/
def lookupPath : PathMap → Val → Option (List Val)
  | [], _ => none
  | (k, p) :: rest, key => if k = key then some p else lookupPath rest key

/-- CPython dict assignment on the paths dictionary. -/
def setPath : PathMap → Val → List Val → PathMap
  | [], key, p => [(key, p)]
  | (k, q) :: rest, key, p =>
      if k = key then (k, p) :: rest else (k, q) :: setPath rest key p

mutual

/-- `get_path_recursive(struct, current_path, paths)` (excemel.py, lines
107-130).  The two mutable arguments (`current_path`, `paths`) are threaded
explicitly and the final state returned.  A dict containing `"col"` records
`current_path` under `paths["merge"]` when `"merge"` is present, records it
under `paths[struct["col"]]`, then executes `current_path.pop()` (IndexError
on an empty path is `none`, and an unhashable `struct["col"]` raises
TypeError, also `none`).  A dict without `"col"` iterates its entries in
order, appending each key before recursing; note the source pops only in
the `"col"` branch, there is no pop after the recursive call returns.  A
list appends the fixed index 0 and recurses into its first element
(IndexError on an empty list).  Any other value falls through and leaves
the state unchanged. -/
def getPathRecursive : Val → List Val → PathMap → Option (List Val × PathMap)
  | .dict d, cp, ps =>
      match lookupD d (.str "col") with
      | some colv =>
          let ps1 := if (lookupD d (.str "merge")).isSome then setPath ps (.str "merge") cp else ps
          if isScalar colv then
            match cp with
            | [] => none
            | _ :: _ => some (cp.dropLast, setPath ps1 colv cp)
          else none
      | none => getPathChildren d cp ps
  | .list l, cp, ps =>
      match l with
      | [] => none
      | x :: _ => getPathRecursive x (cp ++ [.int 0]) ps
  | _, cp, ps => some (cp, ps)

/-- The `for key in struct` loop of `get_path_recursive`: visit the entries
in insertion order, appending each key to the current path before the
recursive call and threading the state left to right. -/
def getPathChildren : List (Val × Val) → List Val → PathMap → Option (List Val × PathMap)
  | [], cp, ps => some (cp, ps)
  | (k, v) :: rest, cp, ps =>
      match getPathRecursive v (cp ++ [k]) ps with
      | none => none
      | some (cp2, ps2) => getPathChildren rest cp2 ps2

end

/-! ## StructMerger: `merge_structs` and `create_final_struct`
(excemel.py, lines 148-204) -/

/-- Python `MERGE_KEY in elem_one`: membership works on dicts (keys), lists
(elements) and strings (substring); it raises TypeError on ints, booleans
and None (`none`). -/
def hasMergeTag : Val → Option Bool
  | .dict d => some (lookupD d mergeKeyV).isSome
  | .list l => some (l.contains mergeKeyV)
  | .str s => some (decide ((s.splitOn mergeKeyS).length > 1))
  | _ => none

mutual

/-- `merge_structs(struct_one, struct_two)` (excemel.py, lines 168-204),
returning the updated `struct_one` (`none` on a raised exception).
If `struct_one` is a dict the source iterates the keys of `struct_two`; a
non-dict `struct_two` then raises a TypeError when iterated or subscripted
with the string keys the program's dicts hold (`none`).  If `struct_one` is
a list, the source reads `struct_one[0]` and `struct_two[0]` (IndexError on
empty; a non-list `struct_two` gives TypeError on the string/whole-shape
subscripts these structures produce): when `struct_one[0]` is itself a list
merge the two first elements in place and stop; otherwise `struct_one[0]`
must be a dict (AttributeError on `.keys()` otherwise), its first key is
taken, both first elements are subscripted with it, and if the first
element's value carries `MERGE_KEY` and the two discriminant values are
equal the first elements are merged in place (no append) — else
`struct_one += struct_two`.  Any other `struct_one` (scalar) makes the whole
function body fall through: the call is a no-op that returns `struct_one`
unchanged. -/
def mergeStructs : Val → Val → Option Val
  | .dict d1, .dict d2 => (mergeDictEntries d1 d2).map .dict
  | .dict _, _ => none
  | .list l1, .list l2 =>
      match l1, l2 with
      | e1 :: t1, e2 :: _ =>
          match e1 with
          | .list _ =>
              match mergeStructs e1 e2 with
              | none => none
              | some r => some (.list (r :: t1))
          | .dict d =>
              match d with
              | [] => none
              | (k, elemOne) :: _ =>
                  match getItem e2 k with
                  | none => none
                  | some elemTwo =>
                      match hasMergeTag elemOne with
                      | none => none
                      | some true =>
                          match getItem elemOne mergeKeyV with
                          | none => none
                          | some mergeBy =>
                              match getItem elemOne mergeBy, getItem elemTwo mergeBy with
                              | some a, some b =>
                                  if a = b then
                                    match mergeStructs e1 e2 with
                                    | none => none
                                    | some r => some (.list (r :: t1))
                                  else some (.list (l1 ++ l2))
                              | _, _ => none
                      | some false => some (.list (l1 ++ l2))
          | _ => none
      | _, _ => none
  | .list _, _ => none
  | one, _ => some one

/-- The `for key in struct_two` loop of the dict branch of `merge_structs`:
fold over the entries of `struct_two` threading the accumulator dict.  A
sequence value recurses into the accumulator's value at that key (KeyError,
`none`, when the key is absent); a missing non-sequence key is copied over;
an existing key recurses. -/
def mergeDictEntries : List (Val × Val) → List (Val × Val) → Option (List (Val × Val))
  | d1, [] => some d1
  | d1, (k, v2) :: rest =>
      match v2 with
      | .list _ =>
          match lookupD d1 k with
          | none => none
          | some v1 =>
              match mergeStructs v1 v2 with
              | none => none
              | some r => mergeDictEntries (setD d1 k r) rest
      | _ =>
          match lookupD d1 k with
          | none => mergeDictEntries (setD d1 k v2) rest
          | some v1 =>
              match mergeStructs v1 v2 with
              | none => none
              | some r => mergeDictEntries (setD d1 k r) rest

end

/-- `create_final_struct(structs)` (excemel.py, lines 148-166): start from
`structs[0]` (IndexError on an empty list) and merge each later struct into
the accumulator left to right. -/
def createFinalStruct : List Val → Option Val
  | [] => none
  | s :: rest => rest.foldlM mergeStructs s

/-! ## RowMaterializer: the per-row loop of `main` (excemel.py, lines 279-298)

`main` materializes each row with

    new_struct = struct.copy()
    ... set_nested_value(new_struct, merge_path, merge_by) ...
    ... set_nested_value(new_struct, paths[j+1].copy(), col.value) ...
    structs.append(copy.deepcopy(new_struct))

`struct.copy()` is a SHALLOW copy: `new_struct` is a fresh top-level
container whose nested containers are the very objects of the config
template `struct`.  Consequently a `set_nested_value` whose path has two or
more segments mutates a nested container shared with the template, so the
write lands in the template as well, while a single-segment path assigns
into the fresh top-level container only.  The program only ever writes
scalar values (cell values, or the merge field name), so sharing is broken
only at top-level keys replaced by single-segment writes, and any deeper
path through such a replaced key fails on the scalar — hence threading the
pair (template, new_struct) and applying multi-segment writes to both is
value-faithful to the CPython aliasing.  The final `copy.deepcopy` makes
the appended struct an independent value, which is what a pure value
already is. -/

/-- One `set_nested_value(new_struct, path, value)` call of the row loop,
applied to the threaded pair (template, new_struct): a single-segment path
assigns into the fresh shallow copy only; a longer path mutates a nested
container shared with the template, so it updates both. -/
def applyWrite : Val × Val → List Val × Val → Option (Val × Val)
  | (tmpl, ns), (path, value) =>
      match path with
      | [] => none
      | [seg] =>
          match assignItem ns seg value with
          | none => none
          | some ns2 => some (tmpl, ns2)
      | _ =>
          match setNestedValue tmpl path value, setNestedValue ns path value with
          | some tmpl2, some ns2 => some (tmpl2, ns2)
          | _, _ => none

/-- The `for j, col in enumerate(row)` loop: cell j (0-based) is written at
`paths[j+1]` when that column index is present, and ignored otherwise.
`jkey` is the 1-based index of the first cell of `row`. -/
def colWrites (ps : PathMap) (row : List Val) (jkey : Int) : List (List Val × Val) :=
  match row with
  | [] => []
  | cell :: rest =>
      (match lookupPath ps (.int jkey) with
       | some p => [(p, cell)]
       | none => []) ++ colWrites ps rest (jkey + 1)

/-- All writes of one row: when `"merge" in paths`, first the MergeTag
write — the merge path with its last segment replaced by `MERGE_KEY`,
assigned the popped last segment itself (the discriminant field name) —
then the column writes.  Popping from an empty merge path raises
(`none`). -/
def rowWrites (ps : PathMap) (row : List Val) : Option (List (List Val × Val)) :=
  match lookupPath ps (.str "merge") with
  | none => some (colWrites ps row 1)
  | some mp =>
      match mp.getLast? with
      | none => none
      | some lastSeg => some ((mp.dropLast ++ [mergeKeyV], lastSeg) :: colWrites ps row 1)

/-- Materialize one row: `struct.copy()` (AttributeError on a scalar
template, `none`), then apply the row's writes; returns the template after
the row (mutated through the shared nested containers) and the appended
RowStruct value. -/
def processRow (tmpl : Val) (ps : PathMap) (row : List Val) : Option (Val × Val) :=
  if isScalar tmpl then none
  else
    match rowWrites ps row with
    | none => none
    | some ws => ws.foldlM applyWrite (tmpl, tmpl)

/-- The row loop over the non-skipped rows, threading the (aliased)
template and collecting the deep-copied RowStructs in order. -/
def processRowsAux : Val → PathMap → List (List Val) → Option (Val × List Val)
  | tmpl, _, [] => some (tmpl, [])
  | tmpl, ps, r :: rs =>
      match processRow tmpl ps r with
      | none => none
      | some (tmpl2, ns) =>
          match processRowsAux tmpl2 ps rs with
          | none => none
          | some (tmplF, structs) => some (tmplF, ns :: structs)

/-- The full row loop of `main`: rows with `i+1 < from_value` (a contiguous
prefix) are skipped, the rest are materialized in order. -/
def processRows (tmpl : Val) (ps : PathMap) (rows : List (List Val)) (fromValue : Int) : Option (Val × List Val) :=
  processRowsAux tmpl ps (rows.drop (fromValue - 1).toNat)

/-- Path indexing followed by the row loop: returns the template as left
after all rows (observing the shallow-copy aliasing) and the RowStructs. -/
def pipelineStructs (template : Val) (rows : List (List Val)) (fromValue : Int) : Option (Val × List Val) :=
  match getPathRecursive template [] [] with
  | none => none
  | some (_, ps) => processRows template ps rows fromValue

/-- The FinalStruct of the pipeline: path indexing, row materialization,
then the merge fold. -/
def pipelineFinal (template : Val) (rows : List (List Val)) (fromValue : Int) : Option Val :=
  match pipelineStructs template rows fromValue with
  | none => none
  | some (_, structs) => createFinalStruct structs

/-! ## XmlBuilder: `build_xml_recursive` (excemel.py, lines 206-237) -/

/-- An in-memory XML element: tag (the dict-key object passed to
`et.SubElement`), optional text, children in document order. -/
inductive XElem where
  | mk : Val → Option String → List XElem → XElem

/-- The tag of an element. -/
def XElem.tag : XElem → Val
  | .mk t _ _ => t

/-- The text of an element. -/
def XElem.text : XElem → Option String
  | .mk _ tx _ => tx

/-- The children of an element. -/
def XElem.children : XElem → List XElem
  | .mk _ _ c => c

/-- Append a fully built child under a parent (`et.SubElement` followed by
the recursive construction of the child's content). -/
def addChild (p : XElem) (c : XElem) : XElem :=
  .mk p.tag p.text (p.children ++ [c])

/-- Python `str(...)` on the scalar values reaching the text branch of the
builder: strings unchanged, integers in decimal, booleans as `True`/`False`,
and None as the string `"None"`.  The builder never applies it to dicts or
lists (those take the recursive branches), so the container cases are
irrelevant and map to the empty string. -/
def pyStr : Val → String
  | .str s => s
  | .int n => toString n
  | .bool b => if b then "True" else "False"
  | .null => "None"
  | .dict _ => ""
  | .list _ => ""

mutual

/-- `build_xml_recursive(struct, parent)` (excemel.py, lines 206-237),
returning the updated parent: a dict creates one child element per key in
order, except the reserved `MERGE_KEY` which is skipped; a list recurses
into each element with the same parent; anything else sets the parent's
text to `str(struct)`. -/
def buildXmlRecursive : Val → XElem → XElem
  | .dict d, parent => buildXmlDict d parent
  | .list l, parent => buildXmlList l parent
  | v, parent => .mk parent.tag (some (pyStr v)) parent.children

/-- The dict loop of `build_xml_recursive`: for each non-`MERGE_KEY` key a
fresh subelement named after the key is appended and filled recursively. -/
def buildXmlDict : List (Val × Val) → XElem → XElem
  | [], p => p
  | (k, v) :: rest, p =>
      if k = mergeKeyV then buildXmlDict rest p
      else buildXmlDict rest (addChild p (buildXmlRecursive v (.mk k none [])))

/-- The list loop of `build_xml_recursive`: every element is rendered into
the same parent, in order. -/
def buildXmlList : List Val → XElem → XElem
  | [], p => p
  | v :: rest, p => buildXmlList rest (buildXmlRecursive v p)

end

mutual

/-- All tags occurring in an element tree (its own and its descendants'). -/
def tagsOf : XElem → List Val
  | .mk t _ cs => t :: tagsOfList cs

/-- All tags occurring in a forest of elements. -/
def tagsOfList : List XElem → List Val
  | [] => []
  | c :: rest => tagsOf c ++ tagsOfList rest

end

/-! ## Concrete templates and observation helpers used by the claims -/

/-- A branching template, `{"A": {"col": 1}, "B": {"C": {"col": 2}}, "D": {"col": 3}}`. -/
def tmplTB : Val := .dict [(.str "A", .dict [(.str "col", .int 1)]),
  (.str "B", .dict [(.str "C", .dict [(.str "col", .int 2)])]),
  (.str "D", .dict [(.str "col", .int 3)])]

/-- A minimal nested template, `{"Main": {"A": {"col": 1}}}`. -/
def tmplT4 : Val := .dict [(.str "Main", .dict [(.str "A", .dict [(.str "col", .int 1)])])]

/-- The canonical merging template:
`{"Main": {"Items": [{"Item": {"Key": {"col": 1, "merge": true}, "Val": {"col": 2}}}]}}`. -/
def tmplT3 : Val := .dict [(.str "Main", .dict [(.str "Items",
  .list [.dict [(.str "Item", .dict [
    (.str "Key", .dict [(.str "col", .int 1), (.str "merge", .bool true)]),
    (.str "Val", .dict [(.str "col", .int 2)])])]])])]

/-- The canonical non-merging template:
`{"Main": {"Items": [{"Item": {"Key": {"col": 1}, "Val": {"col": 2}}}]}}`. -/
def tmplT9 : Val := .dict [(.str "Main", .dict [(.str "Items",
  .list [.dict [(.str "Item", .dict [
    (.str "Key", .dict [(.str "col", .int 1)]),
    (.str "Val", .dict [(.str "col", .int 2)])])]])])]

/-- A sequence group as materialized from `tmplT3`: the two cell values plus
the MergeTag field recording the discriminant field name. -/
def mkGroup3 (k v : Val) : Val :=
  .dict [(.str "Item", .dict [(.str "Key", k), (.str "Val", v), (mergeKeyV, .str "Key")])]

/-- A sequence group as materialized from `tmplT9` (no MergeTag). -/
def mkGroup9 (k v : Val) : Val :=
  .dict [(.str "Item", .dict [(.str "Key", k), (.str "Val", v)])]

/-- The outer shape shared by `tmplT3`/`tmplT9` structures, with the given
group list in the `Items` sequence. -/
def mkFinal (gs : List Val) : Val :=
  .dict [(.str "Main", .dict [(.str "Items", .list gs)])]

/-- A two-cell spreadsheet row. -/
def toRow (p : Val × Val) : List Val := [p.1, p.2]

/-- Observation: the group list in the `Items` sequence of a final struct. -/
def itemsOf (v : Val) : Option (List Val) :=
  match resolve v [.str "Main", .str "Items"] with
  | some (.list gs) => some gs
  | _ => none

/-- Observation: the `Key` discriminant value of one group. -/
def itemKeyOf (g : Val) : Option Val :=
  match getItem g (.str "Item") with
  | some d => getItem d (.str "Key")
  | none => none

/-- Observation: the discriminant values of all groups, in sequence order. -/
def groupKeyList (v : Val) : Option (List Val) :=
  match itemsOf v with
  | some gs => gs.mapM itemKeyOf
  | none => none

/-- Position of the first occurrence of a value in a reference list. -/
def firstOccIdx (keys : List Val) (k : Val) : Nat := keys.indexOf k

/-- Whether a list of indices is nondecreasing. -/
def nondecreasing : List Nat → Bool
  | a :: b :: rest => a ≤ b && nondecreasing (b :: rest)
  | _ => true

/-- The condition under which `set_nested_value` succeeds: the path splits
as `pre ++ [last]`, the leading segments resolve by repeated `getitem`, and
the value reached accepts the final assignment. -/
def validAssignPath (s : Val) (path : List Val) : Prop :=
  ∃ pre last c, path = pre ++ [last] ∧ resolve s pre = some c ∧ canAssign c last = true

/-- The path of the discriminant column in the canonical templates. -/
def pathKeyT : List Val := [.str "Main", .str "Items", .int 0, .str "Item", .str "Key"]

/-- The path of the value column in the canonical templates. -/
def pathValT : List Val := [.str "Main", .str "Items", .int 0, .str "Item", .str "Val"]

/-- The PathMap the source builds from `tmplT3`. -/
def pathsT3 : PathMap := [(.str "merge", pathKeyT), (.int 1, pathKeyT), (.int 2, pathValT)]

/-- The PathMap the source builds from `tmplT9`. -/
def pathsT9 : PathMap := [(.int 1, pathKeyT), (.int 2, pathValT)]

/-- The last processed row pair, defaulting to the given one. -/
def lastPair (x y : Val) : List (Val × Val) → Val × Val
  | [] => (x, y)
  | p :: rest => lastPair p.1 p.2 rest

/-! ## Claims about the XmlBuilder -/

/-- `tagsOf` decomposes through an abstract element. -/
theorem tagsOf_decomp (p : XElem) : tagsOf p = p.tag :: tagsOfList p.children := by
  cases p
  simp [tagsOf, XElem.tag, XElem.children]

/-- `tagsOfList` distributes over append. -/
theorem tagsOfList_append (a b : List XElem) :
    tagsOfList (a ++ b) = tagsOfList a ++ tagsOfList b := by
  induction a with
  | nil => simp [tagsOfList]
  | cons c rest ih => simp [tagsOfList, ih]

mutual

theorem noMergeTag_build : ∀ (v : Val) (p : XElem),
    mergeKeyV ∉ tagsOf p → mergeKeyV ∉ tagsOf (buildXmlRecursive v p)
  | .dict d, p, h => noMergeTag_dict d p h
  | .list l, p, h => noMergeTag_list l p h
  | .str _, p, h => by
      rw [tagsOf_decomp p] at h
      simpa [buildXmlRecursive, tagsOf, XElem.tag, XElem.children] using h
  | .int _, p, h => by
      rw [tagsOf_decomp p] at h
      simpa [buildXmlRecursive, tagsOf, XElem.tag, XElem.children] using h
  | .bool _, p, h => by
      rw [tagsOf_decomp p] at h
      simpa [buildXmlRecursive, tagsOf, XElem.tag, XElem.children] using h
  | .null, p, h => by
      rw [tagsOf_decomp p] at h
      simpa [buildXmlRecursive, tagsOf, XElem.tag, XElem.children] using h

theorem noMergeTag_dict : ∀ (d : List (Val × Val)) (p : XElem),
    mergeKeyV ∉ tagsOf p → mergeKeyV ∉ tagsOf (buildXmlDict d p)
  | [], p, h => by rw [buildXmlDict]; exact h
  | (k, v) :: rest, p, h => by
      rw [buildXmlDict]
      by_cases hk : k = mergeKeyV
      · rw [if_pos hk]
        exact noMergeTag_dict rest p h
      · rw [if_neg hk]
        refine noMergeTag_dict rest _ ?_
        have hchild : mergeKeyV ∉ tagsOf (buildXmlRecursive v (.mk k none [])) := by
          refine noMergeTag_build v (.mk k none []) ?_
          simp [tagsOf, tagsOfList]
          exact fun hkm => hk hkm.symm
        rw [tagsOf_decomp p] at h
        simp [addChild, tagsOf, tagsOfList_append, tagsOfList]
        constructor
        · exact fun hkm => h (by simp [hkm])
        constructor
        · exact fun hkm => h (by simp [hkm])
        · exact hchild

theorem noMergeTag_list : ∀ (l : List Val) (p : XElem),
    mergeKeyV ∉ tagsOf p → mergeKeyV ∉ tagsOf (buildXmlList l p)
  | [], p, h => by rw [buildXmlList]; exact h
  | v :: rest, p, h => by
      rw [buildXmlList]
      exact noMergeTag_list rest _ (noMergeTag_build v p h)

end

/-- Claim C8: for every FinalStruct, the element tree produced by the
builder contains no element named after the reserved `MERGE_KEY` field:
every mapping key equal to the reserved tag is skipped, so the internal
merge bookkeeping never appears in the output tree (assuming the parent
element handed to the builder is itself free of the reserved tag). -/
theorem xml_never_contains_merge_tag (v : Val) (p : XElem)
    (h : mergeKeyV ∉ tagsOf p) : mergeKeyV ∉ tagsOf (buildXmlRecursive v p) :=
  noMergeTag_build v p h

/-- Witness for C8 at a concrete struct that contains the reserved key. -/
theorem xml_never_contains_merge_tag_witness :
    mergeKeyV ∉ tagsOf (.mk (.str "root") none []) ∧
      mergeKeyV ∉ tagsOf (buildXmlRecursive
        (.dict [(mergeKeyV, .str "Key"), (.str "A", .null)]) (.mk (.str "root") none [])) :=
  ⟨by decide, xml_never_contains_merge_tag _ _ (by decide)⟩

/-- Claim C10: when the XML builder reaches a scalar, the parent element's
text becomes the Python string representation of the value: in particular
None becomes the string "None" (not the empty string), strings pass
through, integers print in decimal, booleans as True/False. -/
theorem xml_scalar_text_repr :
    (∀ p : XElem, buildXmlRecursive .null p = .mk p.tag (some "None") p.children) ∧
    ("None" ≠ "") ∧
    (∀ (s : String) (p : XElem), buildXmlRecursive (.str s) p = .mk p.tag (some s) p.children) ∧
    (∀ (n : Int) (p : XElem), buildXmlRecursive (.int n) p = .mk p.tag (some (toString n)) p.children) ∧
    (∀ (b : Bool) (p : XElem), buildXmlRecursive (.bool b) p =
      .mk p.tag (some (if b then "True" else "False")) p.children) := by
  refine ⟨fun p => ?_, by decide, fun s p => ?_, fun n p => ?_, fun b p => ?_⟩ <;>
    rw [buildXmlRecursive] <;> simp [pyStr]

/-! ## Claims about `set_nested_value` -/

/-- The final assignment of `set_nested_value` succeeds exactly when
`canAssign` says so. -/
theorem assignItem_isSome (c seg v : Val) : (assignItem c seg v).isSome = canAssign c seg := by
  cases c with
  | dict d => cases seg <;> simp [assignItem, canAssign, isScalar]
  | list l =>
      cases seg with
      | int n =>
          simp only [assignItem, canAssign, listSet]
          split_ifs with h1 h2 h3 <;> simp [*]
      | str s => simp [assignItem, canAssign]
      | bool b => simp [assignItem, canAssign]
      | null => simp [assignItem, canAssign]
      | dict d2 => simp [assignItem, canAssign]
      | list l2 => simp [assignItem, canAssign]
  | str s => cases seg <;> simp [assignItem, canAssign]
  | int n => cases seg <;> simp [assignItem, canAssign]
  | bool b => cases seg <;> simp [assignItem, canAssign]
  | null => cases seg <;> simp [assignItem, canAssign]

/-- If a subscript read succeeds, writing back at the same subscript
succeeds as well. -/
theorem assignItem_of_getItem {c seg : Val} {x : Val} (h : getItem c seg = some x) (v : Val) :
    (assignItem c seg v).isSome = true := by
  cases c with
  | dict d =>
      simp only [getItem] at h
      by_cases hs : isScalar seg = true
      · simp [assignItem, hs]
      · simp [hs] at h
  | list l =>
      cases seg with
      | int n =>
          simp only [getItem, listGet] at h
          simp only [assignItem, listSet]
          by_cases h1 : 0 ≤ n
          · rw [if_pos h1] at h
            have hlt : n.toNat < l.length := by
              by_contra hge
              rw [List.get?_eq_none.mpr (by omega)] at h
              exact Option.noConfusion h
            simp [h1, hlt]
          · rw [if_neg h1] at h
            by_cases h2 : 0 ≤ (l.length : Int) + n
            · simp [h1, h2]
            · rw [if_neg h2] at h
              exact Option.noConfusion h
      | str s => simp [getItem] at h
      | bool b => simp [getItem] at h
      | null => simp [getItem] at h
      | dict d2 => simp [getItem] at h
      | list l2 => simp [getItem] at h
  | str s => simp [getItem] at h
  | int n => simp [getItem] at h
  | bool b => simp [getItem] at h
  | null => simp [getItem] at h



theorem setNestedValue_isSome : ∀ (s : Val) (path : List Val) (v : Val),
    (setNestedValue s path v).isSome = true ↔ validAssignPath s path
  | s, [], v => by
      simp only [setNestedValue, Option.isSome_none, Bool.false_eq_true, false_iff]
      rintro ⟨pre, last, c, hp, -, -⟩
      exact absurd hp.symm (by simp)
  | s, [seg], v => by
      simp only [setNestedValue]
      constructor
      · intro h
        refine ⟨[], seg, s, rfl, rfl, ?_⟩
        rw [← assignItem_isSome s seg v]
        exact h
      · rintro ⟨pre, last, c, hp, hres, hca⟩
        cases pre with
        | nil =>
            simp only [List.nil_append, List.cons.injEq, and_true] at hp
            simp only [resolve, Option.some.injEq] at hres
            subst hp
            subst hres
            rw [assignItem_isSome]
            exact hca
        | cons a as =>
            simp only [List.cons_append, List.cons.injEq] at hp
            exact absurd hp.2.symm (by simp)
  | s, seg :: b :: rest, v => by
      cases hg : getItem s seg with
      | none =>
          simp only [setNestedValue, hg, Option.isSome_none, Bool.false_eq_true, false_iff]
          rintro ⟨pre, last, c, hp, hres, -⟩
          cases pre with
          | nil => simp at hp
          | cons a as =>
              simp only [List.cons_append, List.cons.injEq] at hp
              obtain ⟨rfl, -⟩ := hp
              simp [resolve, hg] at hres
      | some child =>
          have IH := setNestedValue_isSome child (b :: rest) v
          simp only [setNestedValue, hg]
          constructor
          · intro h
            cases hs : setNestedValue child (b :: rest) v with
            | none => simp only [hs, Option.isSome_none] at h; exact absurd h (by simp)
            | some c2 =>
                obtain ⟨pre, last, c, hp, hres, hca⟩ := IH.mp (by rw [hs]; rfl)
                exact ⟨seg :: pre, last, c, by simp [hp], by simp [resolve, hg, hres], hca⟩
          · rintro ⟨pre, last, c, hp, hres, hca⟩
            cases pre with
            | nil => simp at hp
            | cons a as =>
                simp only [List.cons_append, List.cons.injEq] at hp
                obtain ⟨rfl, hp2⟩ := hp
                simp only [resolve, hg] at hres
                have hrec : (setNestedValue child (b :: rest) v).isSome = true :=
                  IH.mpr ⟨as, last, c, hp2, hres, hca⟩
                cases hs : setNestedValue child (b :: rest) v with
                | none => rw [hs] at hrec; exact absurd hrec (by simp)
                | some c2 => simp only [hs]; exact assignItem_of_getItem hg c2

/-- Counterexample to claim C7 as stated: in `{"a": []}` with path
`["a", 5]`, the only intermediate segment resolves to a container (the
empty list), yet `set_nested_value` fails (IndexError on the final
assignment), so resolving intermediates to containers does not suffice for
success. -/
theorem set_nested_value_c7_cex :
    (resolve (.dict [(.str "a", .list [])]) [.str "a"] = some (.list []) ∧
      isContainer (.list []) = true) ∧
    setNestedValue (.dict [(.str "a", .list [])]) [.str "a", .int 5] (.str "v") = none := by
  decide

/-- Claim C7, amended: `set_nested_value` fails whenever the path is empty,
an intermediate segment fails to resolve (to a container or at all), or the
final assignment target does not accept the last segment; and it succeeds
exactly when the path is nonempty, the intermediate segments resolve, and
the value reached is a container accepting the final segment (any hashable
key for a mapping, an in-range index for a sequence). -/
theorem set_nested_value_success_iff (s : Val) (path : List Val) (v : Val) :
    (setNestedValue s path v).isSome = true ↔ validAssignPath s path :=
  setNestedValue_isSome s path v

/-! ## Claims about `merge_structs` -/

/-- Merging anything into a scalar accumulator is a no-op: the body of
`merge_structs` only handles dicts and lists, so a scalar `struct_one`
falls through unchanged. -/
theorem mergeStructs_scalar (one two : Val) (h : isScalar one = true) :
    mergeStructs one two = some one := by
  cases one <;> simp [isScalar] at h <;> simp [mergeStructs]

/-- When the key of the next entry is present in the accumulator, the
sequence test of the dict loop is irrelevant: both branches recurse into
the stored value. -/
theorem mergeDictEntries_cons_found (d1 : List (Val × Val)) (k v2 : Val)
    (rest : List (Val × Val)) (v1 : Val) (h : lookupD d1 k = some v1) :
    mergeDictEntries d1 ((k, v2) :: rest) =
      match mergeStructs v1 v2 with
      | none => none
      | some r => mergeDictEntries (setD d1 k r) rest := by
  cases v2 <;> simp [mergeDictEntries, h]

/-- The dict loop on an exhausted second dict returns the accumulator. -/
theorem mergeDictEntries_nil (d1 : List (Val × Val)) : mergeDictEntries d1 [] = some d1 := rfl

/-- Counterexample to claim C6 as stated: merging `{}` with `{"k": []}` —
the key `"k"` holds a sequence and is absent from the accumulator — raises
KeyError (the source reads `struct_one[key]` before checking membership
whenever the value is a list), rather than copying the sequence over. -/
theorem merge_absent_sequence_key_cex :
    mergeStructs (.dict []) (.dict [(.str "k", .list [])]) = none := by decide

/-- Claim C6, amended: when merging two mappings, for every key of the
second mapping whose value is a sequence, the accumulator must already
contain the key — the two values are then merged recursively; if the key is
absent the merge fails with a key-lookup error instead of copying the
sequence over. -/
theorem merge_sequence_key_requires_presence (d1 : List (Val × Val)) (k : Val) (l2 : List Val) :
    mergeStructs (.dict d1) (.dict [(k, .list l2)]) =
      match lookupD d1 k with
      | none => none
      | some v1 =>
          match mergeStructs v1 (.list l2) with
          | none => none
          | some r => some (.dict (setD d1 k r)) := by
  cases hl : lookupD d1 k with
  | none => simp [mergeStructs, mergeDictEntries, hl]
  | some v1 =>
      cases hm : mergeStructs v1 (.list l2) with
      | none => simp [mergeStructs, mergeDictEntries, hl, hm]
      | some r => simp [mergeStructs, mergeDictEntries, hl, hm]

/-- Counterexample to claim C1 as stated: the accumulated sequence holds
two groups with discriminants 1 (first) and 2 (most recent); the next
row's group has discriminant 1 and a fresh field "C".  Per the claim the
new row differs from the most recently accumulated group (2 ≠ 1) and must
be appended as a new group, never merged into an earlier one; the source
instead compares against the first group and merges the row into it — the
"C" field lands inside the first, non-adjacent group and nothing is
appended. -/
theorem merge_adjacent_only_cex :
    mergeStructs
      (.list [.dict [(.str "X", .dict [(mergeKeyV, .str "Key"), (.str "Key", .int 1), (.str "A", .str "a")])],
              .dict [(.str "X", .dict [(mergeKeyV, .str "Key"), (.str "Key", .int 2), (.str "B", .str "b")])]])
      (.list [.dict [(.str "X", .dict [(.str "Key", .int 1), (.str "C", .str "c")])]]) =
    some (.list
      [.dict [(.str "X", .dict [(mergeKeyV, .str "Key"), (.str "Key", .int 1), (.str "A", .str "a"), (.str "C", .str "c")])],
       .dict [(.str "X", .dict [(mergeKeyV, .str "Key"), (.str "Key", .int 2), (.str "B", .str "b")])]]) := by
  decide

/-- One merge step on the canonical grouped sequences: the comparison uses
only the first accumulated group; equal discriminants merge into it (a
no-op on identically-fielded groups), different ones append. -/
theorem mergeStep_T3 (a v1 k v : Val) (tail rest2 : List Val)
    (ha : isScalar a = true) (hv1 : isScalar v1 = true) :
    mergeStructs (.list (mkGroup3 a v1 :: tail)) (.list (mkGroup3 k v :: rest2)) =
      if a = k then some (.list (mkGroup3 a v1 :: tail))
      else some (.list ((mkGroup3 a v1 :: tail) ++ (mkGroup3 k v :: rest2))) := by
  by_cases hak : a = k
  · subst hak
    rw [if_pos rfl]
    simp [mergeStructs, mergeDictEntries_cons_found, mergeDictEntries_nil,
      mergeStructs_scalar a a ha, mergeStructs_scalar v1 v hv1, mkGroup3,
      getItem, lookupD, hasMergeTag, isScalar, mergeKeyV, mergeKeyS, setD]
  · rw [if_neg hak]
    simp [mergeStructs, mkGroup3, getItem, lookupD, hasMergeTag, isScalar,
      mergeKeyV, mergeKeyS, hak]

/-- Claim C1, amended: when folding a new row struct into the accumulated
sequence, the source compares the new group's discriminant only against the
FIRST accumulated group at that position (`struct_one[0]`), independently
of any later groups: if the discriminants differ the new struct's sequence
is appended in full, and if they are equal the new group is merged into
that first group (dropping the rest of the new sequence), even when the
first group is not the most recently accumulated one. -/
theorem merge_compares_first_group (a v1 k v : Val) (tail rest2 : List Val)
    (ha : isScalar a = true) (hv1 : isScalar v1 = true) :
    mergeStructs (.list (mkGroup3 a v1 :: tail)) (.list (mkGroup3 k v :: rest2)) =
      if a = k then some (.list (mkGroup3 a v1 :: tail))
      else some (.list ((mkGroup3 a v1 :: tail) ++ (mkGroup3 k v :: rest2))) :=
  mergeStep_T3 a v1 k v tail rest2 ha hv1

/-- Witness for the amended claim C1 at concrete values. -/
theorem merge_compares_first_group_witness :
    isScalar (.int 1) = true ∧ isScalar (.str "x") = true ∧
      mergeStructs (.list [mkGroup3 (.int 1) (.str "x")]) (.list [mkGroup3 (.int 2) (.str "y")]) =
        if (Val.int 1) = (.int 2) then some (.list [mkGroup3 (.int 1) (.str "x")])
        else some (.list ([mkGroup3 (.int 1) (.str "x")] ++ [mkGroup3 (.int 2) (.str "y")])) :=
  ⟨by decide, by decide,
    merge_compares_first_group (.int 1) (.str "x") (.int 2) (.str "y") [] [] (by decide) (by decide)⟩

/-! ## Claims about the PathIndex and the row loop (code bugs) -/

/-- Claim C5 is contradicted by the source: after the recursive call on a
non-descriptor child returns, the child's key is NOT removed from the
current path (the source pops only inside the column-descriptor branch).
Visiting the single child `"B"` (an internal mapping) of a node from the
empty path ends with the path still holding `["B"]` instead of `[]`, so at
the next sibling the path would not consist of the visited node's
ancestors. -/
theorem path_key_not_removed_after_return :
    getPathChildren [(.str "B", .dict [(.str "C", .dict [(.str "col", .int 2)])])] [] [] =
      some ([.str "B"], [(.int 2, [.str "B", .str "C"])]) ∧
    ([Val.str "B"] : List Val) ≠ [] := by decide

/-- Claim C2 is contradicted by the source: on the branching template
`{"A": {"col": 1}, "B": {"C": {"col": 2}}, "D": {"col": 3}}` the key `"B"`
is left on the current path after its subtree returns, so column 3 is
recorded at `["B", "D"]`; that path does not resolve in the template (its
descriptor actually sits at `["D"]`), so the column-to-path round trip
fails. -/
theorem path_roundtrip_violation :
    getPathRecursive tmplTB [] [] =
      some ([.str "B"],
        [(.int 1, [.str "A"]), (.int 2, [.str "B", .str "C"]), (.int 3, [.str "B", .str "D"])]) ∧
    resolve tmplTB [.str "B", .str "D"] = none ∧
    resolve tmplTB [.str "D"] = some (.dict [(.str "col", .int 3)]) := by decide

/-- Claim C4 is contradicted by the source: `new_struct = struct.copy()` is
a shallow copy, so injecting the cell `"x"` at the nested path
`["Main", "A"]` writes through the shared inner dict into the config
template itself — after the row, the template equals
`{"Main": {"A": "x"}}`, no longer the original. -/
theorem template_mutated_by_materialization :
    pipelineStructs tmplT4 [[.str "x"]] 1 =
      some (.dict [(.str "Main", .dict [(.str "A", .str "x")])],
            [.dict [(.str "Main", .dict [(.str "A", .str "x")])]]) ∧
    Val.dict [(.str "Main", .dict [(.str "A", .str "x")])] ≠ tmplT4 := by decide

/-! ## Pipeline lemmas on the canonical templates -/



theorem getPaths_T3 : getPathRecursive tmplT3 [] [] =
    some ([.str "Main", .str "Items", .int 0, .str "Item"], pathsT3) := by decide

theorem getPaths_T9 : getPathRecursive tmplT9 [] [] =
    some ([.str "Main", .str "Items", .int 0, .str "Item"], pathsT9) := by decide

/-- Materializing a two-cell row over the already-materialized merge
template shape overwrites the discriminant, the value and the MergeTag. -/
theorem processRow_T3_steady (x y k v : Val) :
    processRow (mkFinal [mkGroup3 x y]) pathsT3 [k, v] =
      some (mkFinal [mkGroup3 k v], mkFinal [mkGroup3 k v]) := by
  simp [processRow, rowWrites, colWrites, lookupPath, pathsT3, pathKeyT, pathValT,
    applyWrite, setNestedValue, assignItem, getItem, lookupD, setD, isScalar,
    mergeKeyV, mergeKeyS, mkFinal, mkGroup3, listGet, listSet, List.foldlM]

/-- Materializing the first two-cell row over `tmplT3` replaces the two
descriptors and inserts the MergeTag at the end of the group dict. -/
theorem processRow_T3_first (k v : Val) :
    processRow tmplT3 pathsT3 [k, v] =
      some (mkFinal [mkGroup3 k v], mkFinal [mkGroup3 k v]) := by
  simp [processRow, rowWrites, colWrites, lookupPath, pathsT3, pathKeyT, pathValT,
    applyWrite, setNestedValue, assignItem, getItem, lookupD, setD, isScalar,
    mergeKeyV, mergeKeyS, tmplT3, mkFinal, mkGroup3, listGet, listSet, List.foldlM]

/-- Materializing a two-cell row over the non-merging template shape
(`tmplT9` itself has this shape, with descriptors as the field values). -/
theorem processRow_T9 (x y k v : Val) :
    processRow (mkFinal [mkGroup9 x y]) pathsT9 [k, v] =
      some (mkFinal [mkGroup9 k v], mkFinal [mkGroup9 k v]) := by
  simp [processRow, rowWrites, colWrites, lookupPath, pathsT9, pathKeyT, pathValT,
    applyWrite, setNestedValue, assignItem, getItem, lookupD, setD, isScalar,
    mergeKeyV, mergeKeyS, mkFinal, mkGroup9, listGet, listSet, List.foldlM]

theorem processRowsAux_T3 (x y : Val) (rows : List (Val × Val)) :
    processRowsAux (mkFinal [mkGroup3 x y]) pathsT3 (rows.map toRow) =
      some (mkFinal [mkGroup3 (lastPair x y rows).1 (lastPair x y rows).2],
            rows.map fun p => mkFinal [mkGroup3 p.1 p.2]) := by
  induction rows generalizing x y with
  | nil => simp [processRowsAux, lastPair]
  | cons p rest ih =>
      simp [processRowsAux, toRow, processRow_T3_steady, lastPair, ih p.1 p.2]

theorem processRowsAux_T9 (x y : Val) (rows : List (Val × Val)) :
    processRowsAux (mkFinal [mkGroup9 x y]) pathsT9 (rows.map toRow) =
      some (mkFinal [mkGroup9 (lastPair x y rows).1 (lastPair x y rows).2],
            rows.map fun p => mkFinal [mkGroup9 p.1 p.2]) := by
  induction rows generalizing x y with
  | nil => simp [processRowsAux, lastPair]
  | cons p rest ih =>
      simp [processRowsAux, toRow, processRow_T9, lastPair, ih p.1 p.2]

theorem pipelineStructs_T3 (a v1 : Val) (rest : List (Val × Val)) :
    pipelineStructs tmplT3 (((a, v1) :: rest).map toRow) 1 =
      some (mkFinal [mkGroup3 (lastPair a v1 rest).1 (lastPair a v1 rest).2],
            mkFinal [mkGroup3 a v1] :: rest.map fun p => mkFinal [mkGroup3 p.1 p.2]) := by
  simp only [pipelineStructs, getPaths_T3, processRows]
  rw [show ((1 : Int) - 1).toNat = 0 from rfl, List.drop_zero, List.map_cons]
  simp [processRowsAux, toRow, processRow_T3_first, processRowsAux_T3]

theorem pipelineStructs_T9 (a v1 : Val) (rest : List (Val × Val)) :
    pipelineStructs tmplT9 (((a, v1) :: rest).map toRow) 1 =
      some (mkFinal [mkGroup9 (lastPair a v1 rest).1 (lastPair a v1 rest).2],
            mkFinal [mkGroup9 a v1] :: rest.map fun p => mkFinal [mkGroup9 p.1 p.2]) := by
  simp only [pipelineStructs, getPaths_T9, processRows]
  rw [show ((1 : Int) - 1).toNat = 0 from rfl, List.drop_zero, List.map_cons]
  have h0 : tmplT9 = mkFinal [mkGroup9 (.dict [(.str "col", .int 1)]) (.dict [(.str "col", .int 2)])] := rfl
  rw [h0]
  simp [processRowsAux, toRow, processRow_T9, processRowsAux_T9]

/-- Merging two final structs unwraps the two outer dict levels (`Main`,
then `Items`) and merges the two `Items` sequences. -/
theorem mergeStructs_mkFinal (l1 l2 : List Val) :
    mergeStructs (mkFinal l1) (mkFinal l2) =
      match mergeStructs (.list l1) (.list l2) with
      | none => none
      | some r => some (.dict [(.str "Main", .dict [(.str "Items", r)])]) := by
  cases hm : mergeStructs (.list l1) (.list l2) with
  | none =>
      simp [mkFinal, mergeStructs, mergeDictEntries, lookupD, setD, hm, mergeDictEntries_nil]
  | some r =>
      simp [mkFinal, mergeStructs, mergeDictEntries, lookupD, setD, hm, mergeDictEntries_nil]

/-- One merge step on the canonical ungrouped sequences: no MergeTag is
present, so the new sequence is appended in full. -/
theorem mergeStep_T9_list (k1 w1 k v : Val) (tail rest2 : List Val) :
    mergeStructs (.list (mkGroup9 k1 w1 :: tail)) (.list (mkGroup9 k v :: rest2)) =
      some (.list ((mkGroup9 k1 w1 :: tail) ++ (mkGroup9 k v :: rest2))) := by
  simp [mergeStructs, mkGroup9, getItem, lookupD, hasMergeTag, isScalar,
    mergeKeyV, mergeKeyS]

/-- One merge step between whole final structs of the merging shape. -/
theorem mergeStep_final_T3 (a v1 k v : Val) (tail : List Val)
    (ha : isScalar a = true) (hv1 : isScalar v1 = true) :
    mergeStructs (mkFinal (mkGroup3 a v1 :: tail)) (mkFinal [mkGroup3 k v]) =
      if a = k then some (mkFinal (mkGroup3 a v1 :: tail))
      else some (mkFinal ((mkGroup3 a v1 :: tail) ++ [mkGroup3 k v])) := by
  have hstep := mergeStep_T3 a v1 k v tail [] ha hv1
  rw [mergeStructs_mkFinal]
  by_cases hak : a = k
  · rw [if_pos hak]
    rw [if_pos hak] at hstep
    rw [hstep]
    rfl
  · rw [if_neg hak]
    rw [if_neg hak] at hstep
    rw [hstep]
    rfl


/-- One merge step between whole final structs of the non-merging shape:
always an append, in order. -/
theorem mergeStep_final_T9 (k1 w1 k v : Val) (tail : List Val) :
    mergeStructs (mkFinal (mkGroup9 k1 w1 :: tail)) (mkFinal [mkGroup9 k v]) =
      some (mkFinal ((mkGroup9 k1 w1 :: tail) ++ [mkGroup9 k v])) := by
  rw [mergeStructs_mkFinal, mergeStep_T9_list]
  rfl

theorem foldMerge_T9 (k1 w1 : Val) :
    ∀ (rows : List (Val × Val)) (gs : List Val),
    List.foldlM mergeStructs (mkFinal (mkGroup9 k1 w1 :: gs))
        (rows.map fun p => mkFinal [mkGroup9 p.1 p.2]) =
      some (mkFinal ((mkGroup9 k1 w1 :: gs) ++ rows.map fun p => mkGroup9 p.1 p.2))
  | [], gs => by simp
  | p :: rest, gs => by
      rw [List.map_cons, List.foldlM_cons, mergeStep_final_T9]
      rw [show (mkGroup9 k1 w1 :: gs) ++ [mkGroup9 p.1 p.2] =
            mkGroup9 k1 w1 :: (gs ++ [mkGroup9 p.1 p.2]) from by simp]
      rw [show (some (mkFinal (mkGroup9 k1 w1 :: (gs ++ [mkGroup9 p.1 p.2]))) >>= fun b =>
            List.foldlM mergeStructs b (rest.map fun p => mkFinal [mkGroup9 p.1 p.2])) =
            List.foldlM mergeStructs (mkFinal (mkGroup9 k1 w1 :: (gs ++ [mkGroup9 p.1 p.2])))
              (rest.map fun p => mkFinal [mkGroup9 p.1 p.2]) from rfl]
      rw [foldMerge_T9 k1 w1 rest (gs ++ [mkGroup9 p.1 p.2])]
      simp

theorem foldMerge_T3 (a v1 : Val) (ha : isScalar a = true) (hv1 : isScalar v1 = true) :
    ∀ (rows : List (Val × Val)) (gs : List Val),
    List.foldlM mergeStructs (mkFinal (mkGroup3 a v1 :: gs))
        (rows.map fun p => mkFinal [mkGroup3 p.1 p.2]) =
      some (mkFinal (mkGroup3 a v1 ::
        (gs ++ (rows.filter fun p => decide (a ≠ p.1)).map fun p => mkGroup3 p.1 p.2)))
  | [], gs => by simp
  | p :: rest, gs => by
      rw [List.map_cons, List.foldlM_cons, mergeStep_final_T3 a v1 p.1 p.2 _ ha hv1]
      by_cases hap : a = p.1
      · rw [if_pos hap]
        rw [show (some (mkFinal (mkGroup3 a v1 :: gs)) >>= fun b =>
              List.foldlM mergeStructs b (rest.map fun p => mkFinal [mkGroup3 p.1 p.2])) =
              List.foldlM mergeStructs (mkFinal (mkGroup3 a v1 :: gs))
                (rest.map fun p => mkFinal [mkGroup3 p.1 p.2]) from rfl]
        rw [foldMerge_T3 a v1 ha hv1 rest gs]
        simp [List.filter_cons, hap]
      · rw [if_neg hap]
        rw [show (mkGroup3 a v1 :: gs) ++ [mkGroup3 p.1 p.2] =
              mkGroup3 a v1 :: (gs ++ [mkGroup3 p.1 p.2]) from by simp]
        rw [show (some (mkFinal (mkGroup3 a v1 :: (gs ++ [mkGroup3 p.1 p.2]))) >>= fun b =>
              List.foldlM mergeStructs b (rest.map fun p => mkFinal [mkGroup3 p.1 p.2])) =
              List.foldlM mergeStructs (mkFinal (mkGroup3 a v1 :: (gs ++ [mkGroup3 p.1 p.2])))
                (rest.map fun p => mkFinal [mkGroup3 p.1 p.2]) from rfl]
        rw [foldMerge_T3 a v1 ha hv1 rest (gs ++ [mkGroup3 p.1 p.2])]
        simp [List.filter_cons, hap]

/-! ## Claims about the full pipeline -/

/-- Claim C3: for three rows processed in order whose merge-key cells are
A, A, B (with A ≠ B and scalar cells, as spreadsheet cells are), the
FinalStruct's sequence contains exactly two groups: the first combining the
two A rows' non-key fields (the dict merge keeps the first row's value for
every field both rows populate — here all of them — and would copy over
only fields the first lacks), the second containing the B row's fields. -/
theorem merge_grouping_two_plus_one (a v1 v2 b v3 : Val)
    (ha : isScalar a = true) (hv1 : isScalar v1 = true) (hb : a ≠ b) :
    pipelineFinal tmplT3 [[a, v1], [a, v2], [b, v3]] 1 =
      some (mkFinal [mkGroup3 a v1, mkGroup3 b v3]) := by
  have hps := pipelineStructs_T3 a v1 [(a, v2), (b, v3)]
  simp only [List.map_cons, List.map_nil, toRow] at hps
  simp only [pipelineFinal, hps, createFinalStruct]
  rw [show [mkFinal [mkGroup3 a v2], mkFinal [mkGroup3 b v3]] =
        ([(a, v2), (b, v3)].map fun p => mkFinal [mkGroup3 p.1 p.2]) from rfl]
  rw [foldMerge_T3 a v1 ha hv1 [(a, v2), (b, v3)] []]
  simp [List.filter_cons, hb]

/-- Witness for claim C3 at concrete cells. -/
theorem merge_grouping_two_plus_one_witness :
    isScalar (.int 1) = true ∧ isScalar (.str "x") = true ∧ (Val.int 1) ≠ (.int 2) ∧
    pipelineFinal tmplT3 [[.int 1, .str "x"], [.int 1, .str "y"], [.int 2, .str "z"]] 1 =
      some (mkFinal [mkGroup3 (.int 1) (.str "x"), mkGroup3 (.int 2) (.str "z")]) :=
  ⟨by decide, by decide, by decide,
    merge_grouping_two_plus_one (.int 1) (.str "x") (.str "y") (.int 2) (.str "z")
      (by decide) (by decide) (by decide)⟩

/-- Counterexample to claim C9 as stated: with merge-key cells 1, 2, 3, 2
in row order, the FinalStruct holds four groups with discriminants
1, 2, 3, 2 — the value 2 first occurs before 3, yet a group for 2 appears
after the group for 3 (and the two rows with value 2 are not even grouped
together), so merged groups do not appear in first-occurrence order of
their merge-key values. -/
theorem merge_first_occurrence_order_cex :
    (match pipelineFinal tmplT3
        [[.int 1, .str "a"], [.int 2, .str "b"], [.int 3, .str "c"], [.int 2, .str "d"]] 1 with
     | some final => groupKeyList final
     | none => none) = some [.int 1, .int 2, .int 3, .int 2] ∧
    nondecreasing (([Val.int 1, .int 2, .int 3, .int 2]).map
      (firstOccIdx [Val.int 1, .int 2, .int 3, .int 2])) = false := by
  decide

/-- Claim C9, amended: for the non-merging template the FinalStruct's
sequence holds one group per row, in exactly the input row order (for
arbitrary cell values); for the merging template the first row's group
comes first and absorbs every later row whose discriminant equals the FIRST
row's (keeping the first row's field values), while every other row appends
its own group in input row order — groups are neither unique per
discriminant nor ordered by first occurrence beyond the first row's value. -/
theorem order_preservation_row_and_first_group :
    (∀ (p0 : Val × Val) (rest : List (Val × Val)),
       pipelineFinal tmplT9 ((p0 :: rest).map toRow) 1 =
         some (mkFinal ((p0 :: rest).map fun p => mkGroup9 p.1 p.2))) ∧
    (∀ (a v1 : Val) (rest : List (Val × Val)),
       isScalar a = true → isScalar v1 = true →
       pipelineFinal tmplT3 (((a, v1) :: rest).map toRow) 1 =
         some (mkFinal (mkGroup3 a v1 ::
           (rest.filter fun p => decide (a ≠ p.1)).map fun p => mkGroup3 p.1 p.2))) := by
  constructor
  · intro p0 rest
    have hps := pipelineStructs_T9 p0.1 p0.2 rest
    simp only [pipelineFinal, hps, createFinalStruct]
    rw [foldMerge_T9 p0.1 p0.2 rest []]
    simp
  · intro a v1 rest ha hv1
    have hps := pipelineStructs_T3 a v1 rest
    simp only [pipelineFinal, hps, createFinalStruct]
    rw [foldMerge_T3 a v1 ha hv1 rest []]
    simp

/-- Witness for the amended claim C9 at concrete rows. -/
theorem order_preservation_row_and_first_group_witness :
    pipelineFinal tmplT9 [[.int 1, .str "x"], [.int 2, .str "y"]] 1 =
      some (mkFinal [mkGroup9 (.int 1) (.str "x"), mkGroup9 (.int 2) (.str "y")]) ∧
    (isScalar (.int 1) = true ∧
     pipelineFinal tmplT3 [[.int 1, .str "x"], [.int 2, .str "y"]] 1 =
       some (mkFinal [mkGroup3 (.int 1) (.str "x"), mkGroup3 (.int 2) (.str "y")])) := by
  refine ⟨?_, by decide, ?_⟩
  · have h := order_preservation_row_and_first_group.1 (.int 1, .str "x") [(.int 2, .str "y")]
    simpa [toRow] using h
  · have h := order_preservation_row_and_first_group.2 (.int 1) (.str "x")
      [(.int 2, .str "y")] (by decide) (by decide)
    simpa [toRow] using h

end Excemel
